import Mathlib

/-!
Verification of the simulation core of `greedyLife2.py` (GreedyLife).

The grid is embedded as a total function `Int → Int → Nat`; the program only
ever reads or writes coordinates inside `[0, GRID_SIZE)`, checked by `inB`.
Cell states are the integers used by the source: `DEAD = 0`, `ALIVE = 1`,
`RESOURCE = 2`.

The Python source consumes `random.random()` sequentially, one draw per
eligible cell, and immediately compares each draw against a fixed threshold.
Each eligible cell makes exactly one draw, so the random source is embedded
as a per-cell Boolean oracle `Int → Int → Bool` giving the thresholded
outcome of the draw that cell would make (`true` means the draw was below
the threshold).  `create_grid` takes two such oracles, one for the
alive-seeding draw and one for the resource-seeding draw.

The imperative loops become `List.foldl` over the row-major list `cells` of
all in-range coordinates, threading the grid being written exactly as the
source threads `new_grid` (and, for `spawn_new_resources` and `create_grid`,
the grid mutated in place).
-/

namespace GreedyLife

def GRID_SIZE : Nat := 100

def DEAD : Nat := 0
def ALIVE : Nat := 1
def RESOURCE : Nat := 2

/-- A grid snapshot: the state stored at each (row, column) pair. -/
abbrev Grid := Int → Int → Nat

/-- The bounds check `0 <= x < GRID_SIZE and 0 <= y < GRID_SIZE` used
throughout the source. -/
def inB (x y : Int) : Bool :=
  decide (0 ≤ x ∧ x < (GRID_SIZE : Int) ∧ 0 ≤ y ∧ y < (GRID_SIZE : Int))

/-- Writing one cell of a grid (`new_grid[x, y] = v`). -/
def setCell (g : Grid) (x y : Int) (v : Nat) : Grid :=
  fun i j => if i = x ∧ j = y then v else g i j

/-- The increasing list of integers `0, 1, ..., n - 1`. -/
def intRange (n : Nat) : List Int :=
  (List.range n).map Int.ofNat

/-- The row-major list of all in-range coordinates: the iteration order of
the nested `for x in range(GRID_SIZE): for y in range(GRID_SIZE)` loops. -/
def cells : List (Int × Int) :=
  (intRange GRID_SIZE).flatMap
    (fun x => (intRange GRID_SIZE).map (fun y => (x, y)))

/-- The loop bounds `[-1, 0, 1]` of `count_neighbors` and
`check_resource_surrounded`. -/
def neighborOffsets : List Int := [-1, 0, 1]

/-- `count_neighbors(x, y, grid)`: the number of in-bounds Moore neighbors
of `(x, y)` whose state is `ALIVE`, accumulated in the source's loop order. -/
def count_neighbors (x y : Int) (g : Grid) : Nat :=
  neighborOffsets.foldl
    (fun total dx =>
      neighborOffsets.foldl
        (fun total dy =>
          if dx = 0 ∧ dy = 0 then total
          else if inB (x + dx) (y + dy) ∧ g (x + dx) (y + dy) = ALIVE then
            total + 1
          else total)
        total)
    0

/-- The offsets `range(-p, p + 1)` scanned by `resource_in_proximity`. -/
def offsetRange (p : Nat) : List Int :=
  (List.range (2 * p + 1)).map (fun i => Int.ofNat i - (p : Int))

/-- The row-major list of offset pairs scanned by the nested loops of
`resource_in_proximity`. -/
def offsetPairs (p : Nat) : List (Int × Int) :=
  (offsetRange p).flatMap (fun dx => (offsetRange p).map (fun dy => (dx, dy)))

/-- `resource_in_proximity(x, y, grid, proximity_range)`: returns the first
in-bounds cell with state `RESOURCE` in the row-major scan of the square
window of Chebyshev radius `p`, as the source's early `return (nx, ny)`. -/
def resource_in_proximity (x y : Int) (g : Grid) (p : Nat) : Option (Int × Int) :=
  (offsetPairs p).findSome?
    (fun d =>
      if inB (x + d.1) (y + d.2) ∧ g (x + d.1) (y + d.2) = RESOURCE then
        some (x + d.1, y + d.2)
      else none)

/-- `check_resource_surrounded(x, y, grid)`: `False` as soon as some
in-bounds Moore neighbor is neither `ALIVE` nor `RESOURCE`, else `True`. -/
def check_resource_surrounded (x y : Int) (g : Grid) : Bool :=
  neighborOffsets.all
    (fun dx =>
      neighborOffsets.all
        (fun dy =>
          if dx = 0 ∧ dy = 0 then true
          else if inB (x + dx) (y + dy) then
            decide (g (x + dx) (y + dy) = ALIVE ∨ g (x + dx) (y + dy) = RESOURCE)
          else true))

/-- The loop body of `spawn_new_resources` for one cell `c`: a cell read as
`DEAD` whose spawn draw succeeds is overwritten with `RESOURCE`. -/
def spawnStep (rho : Int → Int → Bool) (acc : Grid) (c : Int × Int) : Grid :=
  if acc c.1 c.2 = DEAD ∧ rho c.1 c.2 then setCell acc c.1 c.2 RESOURCE
  else acc

/-- `spawn_new_resources(grid)`: the grid is mutated in place during the
row-major sweep, exactly as in the source. -/
def spawn_new_resources (g : Grid) (rho : Int → Int → Bool) : Grid :=
  cells.foldl (spawnStep rho) g

/-- The loop body of Pass 1 of `update_grid` for one cell `c`, reading the
old grid `g` and writing into the copy `acc` of it. -/
def step1 (g : Grid) (acc : Grid) (c : Int × Int) : Grid :=
  if g c.1 c.2 = RESOURCE ∧ check_resource_surrounded c.1 c.2 g then
    setCell acc c.1 c.2 DEAD
  else acc

/-- Pass 1 of `update_grid`: remove every resource of the old grid that
`check_resource_surrounded` reports as fully surrounded, writing into the
copy `new_grid` of the old grid. -/
def pass1 (g : Grid) : Grid :=
  cells.foldl (step1 g) g

/-- The candidate cell one signed step from `(x, y)` toward `(rx, ry)`:
`(x + np.sign(rx - x), y + np.sign(ry - y))`. -/
def moveTarget (x y rx ry : Int) : Int × Int :=
  (x + (rx - x).sign, y + (ry - y).sign)

/-- The `if resource_pos:`/`else:` part of the loop body of the second loop
of `update_grid` for an `ALIVE` cell `c`, taking the result of
`resource_in_proximity` as its last argument: on `some r` the cell tries to
move one signed step toward `r` (with the source's dead `(new_x, new_y) ==
resource_pos` rewrite), and on `none` the classic Conway rules run. -/
def moveStep (g : Grid) (acc : Grid) (c : Int × Int) : Option (Int × Int) → Grid
  | some r =>
      let t := moveTarget c.1 c.2 r.1 r.2
      if inB t.1 t.2 ∧ g t.1 t.2 = DEAD then
        let a1 := setCell acc t.1 t.2 ALIVE
        let a2 := setCell a1 c.1 c.2 DEAD
        if t = r then setCell a2 t.1 t.2 ALIVE else a2
      else acc
  | none =>
      if count_neighbors c.1 c.2 g < 2 ∨ count_neighbors c.1 c.2 g > 3 then
        setCell acc c.1 c.2 DEAD
      else if count_neighbors c.1 c.2 g = 3 then setCell acc c.1 c.2 ALIVE
      else acc

/-- The body of the second loop of `update_grid` for one cell `c`, reading
the old grid `g` and writing into the accumulated `new_grid` `acc`. -/
def step2 (g : Grid) (acc : Grid) (c : Int × Int) : Grid :=
  if g c.1 c.2 = ALIVE then
    moveStep g acc c (resource_in_proximity c.1 c.2 g 3)
  else if g c.1 c.2 = DEAD then
    if count_neighbors c.1 c.2 g = 3 then setCell acc c.1 c.2 ALIVE else acc
  else acc

/-- Pass 2 of `update_grid`: the cell-update loop. -/
def pass2 (g : Grid) (acc : Grid) : Grid :=
  cells.foldl (step2 g) acc

/-- `update_grid(grid)`: Pass 1 into a copy of the grid, then Pass 2, then
`spawn_new_resources` on the result. -/
def update_grid (g : Grid) (rho : Int → Int → Bool) : Grid :=
  spawn_new_resources (pass2 g (pass1 g)) rho

/-- The loop body of `create_grid` for one cell `c`. -/
def createStep (ra rr : Int → Int → Bool) (acc : Grid) (c : Int × Int) : Grid :=
  if ra c.1 c.2 then setCell acc c.1 c.2 ALIVE
  else if rr c.1 c.2 then setCell acc c.1 c.2 RESOURCE
  else acc

/-- `create_grid()`: starting from the all-zero (all-`DEAD`) array, each
cell whose alive draw succeeds becomes `ALIVE`, else if its resource draw
succeeds it becomes `RESOURCE`. -/
def create_grid (ra rr : Int → Int → Bool) : Grid :=
  cells.foldl (createStep ra rr) (fun _ _ => DEAD)

/-! Basic lemmas about the embedding. -/

theorem setCell_self (g : Grid) (x y : Int) (v : Nat) : setCell g x y v x y = v := by
  simp [setCell]

theorem setCell_other (g : Grid) (x y i j : Int) (v : Nat) (h : ¬(i = x ∧ j = y)) :
    setCell g x y v i j = g i j := by
  simp [setCell, h]

theorem inB_iff (x y : Int) :
    inB x y = true ↔ 0 ≤ x ∧ x < 100 ∧ 0 ≤ y ∧ y < 100 := by
  simp [inB, GRID_SIZE]

theorem grid_size_eq : GRID_SIZE = 100 := rfl

theorem mem_intRange (n : Nat) (a : Int) :
    a ∈ intRange n ↔ 0 ≤ a ∧ a < (n : Int) := by
  rw [intRange, List.mem_map]
  constructor
  · rintro ⟨i, hi, rfl⟩
    rw [List.mem_range] at hi
    rw [Int.ofNat_eq_natCast]
    omega
  · intro h
    refine ⟨a.toNat, ?_, ?_⟩
    · rw [List.mem_range]; omega
    · rw [Int.ofNat_eq_natCast]; omega

theorem intRange_pairwise (n : Nat) :
    List.Pairwise (fun a b : Int => a < b) (intRange n) := by
  refine List.Pairwise.map Int.ofNat ?_ (List.pairwise_lt_range n)
  intro a b hab
  rw [Int.ofNat_eq_natCast, Int.ofNat_eq_natCast]
  omega

theorem mem_cells (c : Int × Int) : c ∈ cells ↔ inB c.1 c.2 = true := by
  obtain ⟨i, j⟩ := c
  rw [cells, List.mem_flatMap]
  constructor
  · rintro ⟨x, hx, hmem⟩
    rw [mem_intRange, grid_size_eq] at hx
    rw [List.mem_map] at hmem
    obtain ⟨y, hy, heq⟩ := hmem
    rw [mem_intRange, grid_size_eq] at hy
    rw [Prod.mk.injEq] at heq
    obtain ⟨h1, h2⟩ := heq
    rw [inB_iff]
    constructor
    · omega
    · refine ⟨?_, ?_, ?_⟩ <;> omega
  · intro h
    rw [inB_iff] at h
    refine ⟨i, ?_, ?_⟩
    · rw [mem_intRange, grid_size_eq]
      exact ⟨h.1, by omega⟩
    · rw [List.mem_map]
      refine ⟨j, ?_, rfl⟩
      rw [mem_intRange, grid_size_eq]
      exact ⟨h.2.2.1, by omega⟩

theorem cells_nodup : cells.Nodup := by
  rw [List.Nodup, cells, List.pairwise_flatMap]
  constructor
  · intro x _
    refine List.Pairwise.map (fun y : Int => (x, y)) ?_ (intRange_pairwise GRID_SIZE)
    intro a b hab
    simp only [ne_eq, Prod.mk.injEq, not_and]
    intro _
    omega
  · refine List.Pairwise.imp ?_ (intRange_pairwise GRID_SIZE)
    intro a b hab
    intro u hu v hv
    rw [List.mem_map] at hu hv
    obtain ⟨yu, _, hu⟩ := hu
    obtain ⟨yv, _, hv⟩ := hv
    subst hu; subst hv
    simp only [ne_eq, Prod.mk.injEq, not_and]
    intro hcast
    omega


theorem ne_pair_components {k : Int × Int} {i j : Int} (h : k ≠ (i, j)) :
    ¬(i = k.1 ∧ j = k.2) := by
  rintro ⟨h1, h2⟩
  exact h (Prod.ext_iff.mpr ⟨h1.symm, h2.symm⟩)

theorem cells_split {c : Int × Int} (h : c ∈ cells) :
    ∃ s t, cells = s ++ c :: t ∧ c ∉ s ∧ c ∉ t := by
  obtain ⟨s, t, hst⟩ := List.append_of_mem h
  have hn := cells_nodup
  rw [hst, List.nodup_append] at hn
  obtain ⟨hs, hct, hdisj⟩ := hn
  rw [List.nodup_cons] at hct
  refine ⟨s, t, hst, ?_, hct.1⟩
  intro hcs
  exact hdisj hcs (List.mem_cons_self c t)

theorem step1_pair (g acc : Grid) (k1 k2 : Int) :
    step1 g acc (k1, k2)
      = if g k1 k2 = RESOURCE ∧ check_resource_surrounded k1 k2 g then
          setCell acc k1 k2 DEAD
        else acc := rfl

theorem spawnStep_pair (rho : Int → Int → Bool) (acc : Grid) (k1 k2 : Int) :
    spawnStep rho acc (k1, k2)
      = if acc k1 k2 = DEAD ∧ rho k1 k2 then setCell acc k1 k2 RESOURCE
        else acc := rfl

theorem step1_untouched (g acc : Grid) (k1 k2 i j : Int)
    (h : ¬(i = k1 ∧ j = k2)) : step1 g acc (k1, k2) i j = acc i j := by
  rw [step1_pair]
  by_cases hPk : g k1 k2 = RESOURCE ∧ check_resource_surrounded k1 k2 g
  · rw [if_pos hPk]
    exact setCell_other acc k1 k2 i j DEAD h
  · rw [if_neg hPk]

theorem pass1_fold (g : Grid) (l : List (Int × Int)) (acc : Grid) (i j : Int) :
    (l.foldl (step1 g) acc) i j
      = if (i, j) ∈ l ∧ g i j = RESOURCE ∧ check_resource_surrounded i j g then
          DEAD
        else acc i j := by
  induction l generalizing acc with
  | nil => simp
  | cons k l ih =>
    obtain ⟨k1, k2⟩ := k
    rw [List.foldl_cons, ih]
    by_cases he : (i, j) = (k1, k2)
    · rw [Prod.mk.injEq] at he
      obtain ⟨rfl, rfl⟩ := he
      by_cases hP : g i j = RESOURCE ∧ check_resource_surrounded i j g
      · have hstep : step1 g acc (i, j) i j = DEAD := by
          rw [step1_pair, if_pos hP, setCell_self]
        rw [hstep, ite_self, if_pos ⟨List.mem_cons_self (i, j) l, hP⟩]
      · have hstep : step1 g acc (i, j) i j = acc i j := by
          rw [step1_pair, if_neg hP]
        rw [hstep]
        have h1 : ¬((i, j) ∈ l ∧ g i j = RESOURCE ∧
            check_resource_surrounded i j g) := fun hc => hP hc.2
        have h2 : ¬((i, j) ∈ (i, j) :: l ∧ g i j = RESOURCE ∧
            check_resource_surrounded i j g) := fun hc => hP hc.2
        rw [if_neg h1, if_neg h2]
    · have hstep : step1 g acc (k1, k2) i j = acc i j :=
        step1_untouched g acc k1 k2 i j (ne_pair_components (Ne.symm he))
      rw [hstep]
      have hmem : (i, j) ∈ (k1, k2) :: l ↔ (i, j) ∈ l := by
        rw [List.mem_cons]
        exact or_iff_right he
      by_cases hc : (i, j) ∈ l ∧ g i j = RESOURCE ∧ check_resource_surrounded i j g
      · rw [if_pos hc, if_pos ⟨hmem.mpr hc.1, hc.2⟩]
      · rw [if_neg hc, if_neg (fun hx => hc ⟨hmem.mp hx.1, hx.2⟩)]

theorem pass1_apply (g : Grid) (i j : Int) :
    pass1 g i j
      = if inB i j = true ∧ g i j = RESOURCE ∧ check_resource_surrounded i j g then
          DEAD
        else g i j := by
  rw [pass1, pass1_fold]
  by_cases hc : (i, j) ∈ cells ∧ g i j = RESOURCE ∧ check_resource_surrounded i j g
  · rw [if_pos hc, if_pos ⟨(mem_cells (i, j)).mp hc.1, hc.2⟩]
  · rw [if_neg hc, if_neg (fun hx => hc ⟨(mem_cells (i, j)).mpr hx.1, hx.2⟩)]

theorem spawn_fold_untouched (rho : Int → Int → Bool) (l : List (Int × Int))
    (acc : Grid) (i j : Int) (h : (i, j) ∉ l) :
    (l.foldl (spawnStep rho) acc) i j = acc i j := by
  induction l generalizing acc with
  | nil => simp
  | cons k l ih =>
    rw [List.mem_cons] at h
    push_neg at h
    obtain ⟨k1, k2⟩ := k
    rw [List.foldl_cons, ih _ h.2, spawnStep_pair]
    by_cases hc : acc k1 k2 = DEAD ∧ rho k1 k2 = true
    · rw [if_pos hc]
      exact setCell_other acc k1 k2 i j RESOURCE (ne_pair_components (Ne.symm h.1))
    · rw [if_neg hc]

theorem spawn_apply (g : Grid) (rho : Int → Int → Bool) (i j : Int)
    (hin : inB i j = true) :
    spawn_new_resources g rho i j
      = if g i j = DEAD ∧ rho i j then RESOURCE else g i j := by
  obtain ⟨s, t, hst, hs, ht⟩ := cells_split ((mem_cells (i, j)).mpr hin)
  rw [spawn_new_resources, hst, List.foldl_append, List.foldl_cons,
    spawn_fold_untouched rho t _ i j ht, spawnStep_pair]
  by_cases hc : g i j = DEAD ∧ rho i j = true
  · rw [if_pos ⟨by rw [spawn_fold_untouched rho s g i j hs]; exact hc.1, hc.2⟩,
      setCell_self, if_pos hc]
  · have hcon : ¬((s.foldl (spawnStep rho) g) i j = DEAD ∧ rho i j = true) := by
      rw [spawn_fold_untouched rho s g i j hs]
      exact hc
    rw [if_neg hcon, spawn_fold_untouched rho s g i j hs, if_neg hc]

/-- The write set of one Pass-2 iteration `(k1, k2)` at a cell `(i, j)` that
is `DEAD` in the old grid: either the alive cell `(k1, k2)` relocates onto
`(i, j)`, or `(i, j)` is the iterated cell itself and is a birth (exactly
three alive neighbors). -/
def writes2 (g : Grid) (k1 k2 i j : Int) : Prop :=
  (g k1 k2 = ALIVE ∧ ∃ r : Int × Int,
      resource_in_proximity k1 k2 g 3 = some r ∧
      inB (moveTarget k1 k2 r.1 r.2).1 (moveTarget k1 k2 r.1 r.2).2 = true ∧
      g (moveTarget k1 k2 r.1 r.2).1 (moveTarget k1 k2 r.1 r.2).2 = DEAD ∧
      moveTarget k1 k2 r.1 r.2 = (i, j))
  ∨ (k1 = i ∧ k2 = j ∧ count_neighbors i j g = 3)

theorem step2_own_resource (g acc : Grid) (k1 k2 : Int)
    (h : g k1 k2 = RESOURCE) : step2 g acc (k1, k2) = acc := by
  simp [step2, h, ALIVE, DEAD, RESOURCE]

theorem step2_pair (g acc : Grid) (k1 k2 : Int) :
    step2 g acc (k1, k2)
      = if g k1 k2 = ALIVE then
          moveStep g acc (k1, k2) (resource_in_proximity k1 k2 g 3)
        else if g k1 k2 = DEAD then
          if count_neighbors k1 k2 g = 3 then setCell acc k1 k2 ALIVE else acc
        else acc := rfl

theorem moveStep_none (g acc : Grid) (k1 k2 : Int) :
    moveStep g acc (k1, k2) none
      = if count_neighbors k1 k2 g < 2 ∨ count_neighbors k1 k2 g > 3 then
          setCell acc k1 k2 DEAD
        else if count_neighbors k1 k2 g = 3 then setCell acc k1 k2 ALIVE
        else acc := rfl

theorem moveStep_some (g acc : Grid) (k1 k2 r1 r2 : Int) :
    moveStep g acc (k1, k2) (some (r1, r2))
      = if inB (moveTarget k1 k2 r1 r2).1 (moveTarget k1 k2 r1 r2).2 ∧
            g (moveTarget k1 k2 r1 r2).1 (moveTarget k1 k2 r1 r2).2 = DEAD then
          if moveTarget k1 k2 r1 r2 = (r1, r2) then
            setCell
              (setCell (setCell acc (moveTarget k1 k2 r1 r2).1
                  (moveTarget k1 k2 r1 r2).2 ALIVE) k1 k2 DEAD)
              (moveTarget k1 k2 r1 r2).1 (moveTarget k1 k2 r1 r2).2 ALIVE
          else
            setCell (setCell acc (moveTarget k1 k2 r1 r2).1
                (moveTarget k1 k2 r1 r2).2 ALIVE) k1 k2 DEAD
        else acc := rfl

theorem step2_untouched_notDead (g acc : Grid) (k1 k2 i j : Int)
    (hne : ¬(i = k1 ∧ j = k2)) (hd : g i j ≠ DEAD) :
    step2 g acc (k1, k2) i j = acc i j := by
  rw [step2_pair]
  by_cases hka : g k1 k2 = ALIVE
  · rw [if_pos hka]
    cases hrp : resource_in_proximity k1 k2 g 3 with
    | none =>
        rw [moveStep_none]
        split_ifs with h1 h2
        · exact setCell_other acc k1 k2 i j DEAD hne
        · exact setCell_other acc k1 k2 i j ALIVE hne
        · rfl
    | some r =>
        obtain ⟨r1, r2⟩ := r
        rw [moveStep_some]
        by_cases hmv : inB (moveTarget k1 k2 r1 r2).1 (moveTarget k1 k2 r1 r2).2 = true ∧
            g (moveTarget k1 k2 r1 r2).1 (moveTarget k1 k2 r1 r2).2 = DEAD
        · have htne : ¬(i = (moveTarget k1 k2 r1 r2).1 ∧ j = (moveTarget k1 k2 r1 r2).2) := by
            rintro ⟨rfl, rfl⟩
            exact hd hmv.2
          rw [if_pos hmv]
          split_ifs with hcons
          · rw [setCell_other _ _ _ _ _ _ htne, setCell_other _ _ _ _ _ _ hne,
              setCell_other _ _ _ _ _ _ htne]
          · rw [setCell_other _ _ _ _ _ _ hne, setCell_other _ _ _ _ _ _ htne]
        · rw [if_neg hmv]
  · rw [if_neg hka]
    by_cases hkd : g k1 k2 = DEAD
    · rw [if_pos hkd]
      split_ifs with h1
      · exact setCell_other acc k1 k2 i j ALIVE hne
      · rfl
    · rw [if_neg hkd]

theorem dead_ne_alive : DEAD ≠ ALIVE := by decide

theorem step2_dead_write (g acc : Grid) (k1 k2 i j : Int) (hd : g i j = DEAD)
    (hw : writes2 g k1 k2 i j) : step2 g acc (k1, k2) i j = ALIVE := by
  rw [step2_pair]
  rcases hw with ⟨hka, ⟨r1, r2⟩, hrp, hin, hdd, htc⟩ | ⟨rfl, rfl, hcnt⟩
  · have hne : ¬(i = k1 ∧ j = k2) := by
      rintro ⟨rfl, rfl⟩
      rw [hd] at hka
      exact dead_ne_alive hka
    have hti : (moveTarget k1 k2 r1 r2).1 = i := by rw [htc]
    have htj : (moveTarget k1 k2 r1 r2).2 = j := by rw [htc]
    rw [if_pos hka, hrp, moveStep_some, if_pos ⟨hin, hdd⟩]
    split_ifs with hcons
    · rw [hti, htj, setCell_self]
    · rw [setCell_other _ _ _ _ _ _ hne, hti, htj, setCell_self]
  · have hnal : ¬(g k1 k2 = ALIVE) := by
      intro h
      rw [hd] at h
      exact dead_ne_alive h
    rw [if_neg hnal, if_pos hd, if_pos hcnt, setCell_self]

theorem step2_dead_skip (g acc : Grid) (k1 k2 i j : Int) (hd : g i j = DEAD)
    (hw : ¬writes2 g k1 k2 i j) : step2 g acc (k1, k2) i j = acc i j := by
  rw [step2_pair]
  by_cases hka : g k1 k2 = ALIVE
  · have hne : ¬(i = k1 ∧ j = k2) := by
      rintro ⟨rfl, rfl⟩
      rw [hd] at hka
      exact dead_ne_alive hka
    rw [if_pos hka]
    cases hrp : resource_in_proximity k1 k2 g 3 with
    | none =>
        rw [moveStep_none]
        split_ifs with h1 h2
        · exact setCell_other acc k1 k2 i j DEAD hne
        · exact setCell_other acc k1 k2 i j ALIVE hne
        · rfl
    | some r =>
        obtain ⟨r1, r2⟩ := r
        rw [moveStep_some]
        by_cases hmv : inB (moveTarget k1 k2 r1 r2).1 (moveTarget k1 k2 r1 r2).2 = true ∧
            g (moveTarget k1 k2 r1 r2).1 (moveTarget k1 k2 r1 r2).2 = DEAD
        · have htc : moveTarget k1 k2 r1 r2 ≠ (i, j) := by
            intro hc
            exact hw (Or.inl ⟨hka, (r1, r2), hrp, hmv.1, hmv.2, hc⟩)
          have htne : ¬(i = (moveTarget k1 k2 r1 r2).1 ∧
              j = (moveTarget k1 k2 r1 r2).2) := ne_pair_components htc
          rw [if_pos hmv]
          split_ifs with hcons
          · rw [setCell_other _ _ _ _ _ _ htne, setCell_other _ _ _ _ _ _ hne,
              setCell_other _ _ _ _ _ _ htne]
          · rw [setCell_other _ _ _ _ _ _ hne, setCell_other _ _ _ _ _ _ htne]
        · rw [if_neg hmv]
  · rw [if_neg hka]
    by_cases hkd : g k1 k2 = DEAD
    · rw [if_pos hkd]
      by_cases hke : k1 = i ∧ k2 = j
      · obtain ⟨rfl, rfl⟩ := hke
        have hc3 : ¬(count_neighbors k1 k2 g = 3) := fun hc =>
          hw (Or.inr ⟨rfl, rfl, hc⟩)
        rw [if_neg hc3]
      · have hne : ¬(i = k1 ∧ j = k2) := fun hc => hke ⟨hc.1.symm, hc.2.symm⟩
        split_ifs with h1
        · exact setCell_other acc k1 k2 i j ALIVE hne
        · rfl
    · rw [if_neg hkd]

theorem alive_ne_dead : ALIVE ≠ DEAD := by decide

theorem resource_ne_dead : RESOURCE ≠ DEAD := by decide

theorem alive_ne_resource : ALIVE ≠ RESOURCE := by decide

theorem pass2_fold_untouched_notDead (g : Grid) (i j : Int) (hnd : g i j ≠ DEAD)
    (l : List (Int × Int)) (hmem : (i, j) ∉ l) (acc : Grid) :
    (l.foldl (step2 g) acc) i j = acc i j := by
  induction l generalizing acc with
  | nil => simp
  | cons k l ih =>
    rw [List.mem_cons] at hmem
    push_neg at hmem
    obtain ⟨k1, k2⟩ := k
    rw [List.foldl_cons, ih hmem.2,
      step2_untouched_notDead g acc k1 k2 i j (ne_pair_components (Ne.symm hmem.1)) hnd]

theorem pass2_fold_dead_stays (g : Grid) (i j : Int) (hd : g i j = DEAD)
    (l : List (Int × Int)) (acc : Grid) (hacc : acc i j = ALIVE) :
    (l.foldl (step2 g) acc) i j = ALIVE := by
  induction l generalizing acc with
  | nil => simpa using hacc
  | cons k l ih =>
    obtain ⟨k1, k2⟩ := k
    rw [List.foldl_cons]
    by_cases hw : writes2 g k1 k2 i j
    · exact ih _ (step2_dead_write g acc k1 k2 i j hd hw)
    · exact ih _ ((step2_dead_skip g acc k1 k2 i j hd hw).trans hacc)

theorem pass2_fold_dead_pos (g : Grid) (i j : Int) (hd : g i j = DEAD)
    (l : List (Int × Int)) (acc : Grid)
    (hex : ∃ k ∈ l, writes2 g k.1 k.2 i j) :
    (l.foldl (step2 g) acc) i j = ALIVE := by
  induction l generalizing acc with
  | nil => simp at hex
  | cons k l ih =>
    obtain ⟨k0, hk0m, hk0w⟩ := hex
    rw [List.mem_cons] at hk0m
    obtain ⟨k1, k2⟩ := k
    rw [List.foldl_cons]
    rcases hk0m with rfl | hk0m
    · exact pass2_fold_dead_stays g i j hd l _
        (step2_dead_write g acc k1 k2 i j hd hk0w)
    · exact ih _ ⟨k0, hk0m, hk0w⟩

theorem pass2_fold_dead_neg (g : Grid) (i j : Int) (hd : g i j = DEAD)
    (l : List (Int × Int)) (acc : Grid)
    (hall : ∀ k ∈ l, ¬writes2 g k.1 k.2 i j) :
    (l.foldl (step2 g) acc) i j = acc i j := by
  induction l generalizing acc with
  | nil => simp
  | cons k l ih =>
    obtain ⟨k1, k2⟩ := k
    rw [List.foldl_cons,
      ih _ (fun k0 hk0 => hall k0 (List.mem_cons_of_mem _ hk0)),
      step2_dead_skip g acc k1 k2 i j hd (hall (k1, k2) (List.mem_cons_self _ _))]

theorem pass2_fold_resource (g : Grid) (i j : Int) (hr : g i j = RESOURCE)
    (l : List (Int × Int)) (acc : Grid) :
    (l.foldl (step2 g) acc) i j = acc i j := by
  induction l generalizing acc with
  | nil => simp
  | cons k l ih =>
    obtain ⟨k1, k2⟩ := k
    rw [List.foldl_cons, ih]
    by_cases he : (k1, k2) = (i, j)
    · rw [Prod.mk.injEq] at he
      obtain ⟨rfl, rfl⟩ := he
      rw [step2_own_resource g acc k1 k2 hr]
    · exact step2_untouched_notDead g acc k1 k2 i j
        (ne_pair_components he) (fun hc => resource_ne_dead (hr ▸ hc))

/-- The value written by an `ALIVE` cell's own Pass-2 iteration at its own
coordinates, as a function of the `resource_in_proximity` lookup. -/
def aliveNextAux (g : Grid) (i j : Int) : Option (Int × Int) → Nat
  | some r =>
      if inB (moveTarget i j r.1 r.2).1 (moveTarget i j r.1 r.2).2 ∧
          g (moveTarget i j r.1 r.2).1 (moveTarget i j r.1 r.2).2 = DEAD then
        DEAD
      else ALIVE
  | none =>
      if count_neighbors i j g < 2 ∨ count_neighbors i j g > 3 then DEAD
      else ALIVE

/-- The next state, before resource spawning, of a cell that is `ALIVE` in
the old grid: `DEAD` when it relocates or dies of its neighbor count,
`ALIVE` otherwise. -/
def aliveNext (g : Grid) (i j : Int) : Nat :=
  aliveNextAux g i j (resource_in_proximity i j g 3)

theorem aliveNextAux_some (g : Grid) (i j r1 r2 : Int) :
    aliveNextAux g i j (some (r1, r2))
      = if inB (moveTarget i j r1 r2).1 (moveTarget i j r1 r2).2 ∧
            g (moveTarget i j r1 r2).1 (moveTarget i j r1 r2).2 = DEAD then
          DEAD
        else ALIVE := rfl

theorem aliveNextAux_none (g : Grid) (i j : Int) :
    aliveNextAux g i j none
      = if count_neighbors i j g < 2 ∨ count_neighbors i j g > 3 then DEAD
        else ALIVE := rfl

theorem step2_own_alive (g acc : Grid) (k1 k2 : Int) (ha : g k1 k2 = ALIVE)
    (hacc : acc k1 k2 = ALIVE) :
    step2 g acc (k1, k2) k1 k2 = aliveNext g k1 k2 := by
  rw [step2_pair, if_pos ha, aliveNext]
  cases hrp : resource_in_proximity k1 k2 g 3 with
  | none =>
      rw [moveStep_none, aliveNextAux_none]
      split_ifs with h1 h2
      · exact setCell_self acc k1 k2 DEAD
      · exact setCell_self acc k1 k2 ALIVE
      · exact hacc
  | some r =>
      obtain ⟨r1, r2⟩ := r
      rw [moveStep_some, aliveNextAux_some]
      by_cases hmv : inB (moveTarget k1 k2 r1 r2).1 (moveTarget k1 k2 r1 r2).2 = true ∧
          g (moveTarget k1 k2 r1 r2).1 (moveTarget k1 k2 r1 r2).2 = DEAD
      · have htne : ¬(k1 = (moveTarget k1 k2 r1 r2).1 ∧
            k2 = (moveTarget k1 k2 r1 r2).2) := by
          rintro ⟨h1, h2⟩
          rw [← h1, ← h2, ha] at hmv
          exact alive_ne_dead hmv.2
        rw [if_pos hmv, if_pos hmv]
        split_ifs with hcons
        · rw [setCell_other _ _ _ _ _ _ htne, setCell_self]
        · rw [setCell_self]
      · rw [if_neg hmv, if_neg hmv]
        exact hacc

theorem pass1_dead (g : Grid) (i j : Int) (hd : g i j = DEAD) :
    pass1 g i j = DEAD := by
  have hnc : ¬(inB i j = true ∧ g i j = RESOURCE ∧
      check_resource_surrounded i j g = true) := by
    intro hc
    rw [hd] at hc
    exact resource_ne_dead hc.2.1.symm
  rw [pass1_apply, if_neg hnc]
  exact hd

theorem pass1_alive (g : Grid) (i j : Int) (ha : g i j = ALIVE) :
    pass1 g i j = ALIVE := by
  rw [pass1_apply, if_neg (fun hc => alive_ne_resource (ha ▸ hc.2.1))]
  exact ha

theorem pass2_apply_alive (g : Grid) (i j : Int) (hin : inB i j = true)
    (ha : g i j = ALIVE) :
    pass2 g (pass1 g) i j = aliveNext g i j := by
  have hnd : g i j ≠ DEAD := fun hc => alive_ne_dead (ha ▸ hc)
  obtain ⟨s, t, hst, hs, ht⟩ := cells_split ((mem_cells (i, j)).mpr hin)
  rw [pass2, hst, List.foldl_append, List.foldl_cons,
    pass2_fold_untouched_notDead g i j hnd t ht]
  have hmid : (s.foldl (step2 g) (pass1 g)) i j = ALIVE := by
    rw [pass2_fold_untouched_notDead g i j hnd s hs]
    exact pass1_alive g i j ha
  exact step2_own_alive g _ i j ha hmid

theorem pass2_apply_dead_pos (g : Grid) (i j : Int) (hd : g i j = DEAD)
    (hex : ∃ k ∈ cells, writes2 g k.1 k.2 i j) :
    pass2 g (pass1 g) i j = ALIVE :=
  pass2_fold_dead_pos g i j hd cells (pass1 g) hex

theorem pass2_apply_dead_neg (g : Grid) (i j : Int) (hd : g i j = DEAD)
    (hall : ∀ k ∈ cells, ¬writes2 g k.1 k.2 i j) :
    pass2 g (pass1 g) i j = DEAD := by
  rw [pass2, pass2_fold_dead_neg g i j hd cells (pass1 g) hall]
  exact pass1_dead g i j hd

theorem pass2_apply_resource (g : Grid) (i j : Int) (hr : g i j = RESOURCE) :
    pass2 g (pass1 g) i j = pass1 g i j :=
  pass2_fold_resource g i j hr cells (pass1 g)

theorem update_alive (g : Grid) (rho : Int → Int → Bool) (i j : Int)
    (hin : inB i j = true) (ha : g i j = ALIVE) :
    update_grid g rho i j
      = if aliveNext g i j = DEAD ∧ rho i j then RESOURCE
        else aliveNext g i j := by
  rw [update_grid, spawn_apply _ rho i j hin, pass2_apply_alive g i j hin ha]

theorem update_dead_pos (g : Grid) (rho : Int → Int → Bool) (i j : Int)
    (hin : inB i j = true) (hd : g i j = DEAD)
    (hex : ∃ k ∈ cells, writes2 g k.1 k.2 i j) :
    update_grid g rho i j = ALIVE := by
  have hp : pass2 g (pass1 g) i j = ALIVE := pass2_apply_dead_pos g i j hd hex
  rw [update_grid, spawn_apply _ rho i j hin, hp,
    if_neg (fun hc => alive_ne_dead hc.1)]

theorem update_dead_neg (g : Grid) (rho : Int → Int → Bool) (i j : Int)
    (hin : inB i j = true) (hd : g i j = DEAD)
    (hall : ∀ k ∈ cells, ¬writes2 g k.1 k.2 i j) :
    update_grid g rho i j = if rho i j then RESOURCE else DEAD := by
  rw [update_grid, spawn_apply _ rho i j hin, pass2_apply_dead_neg g i j hd hall]
  by_cases hrho : rho i j = true
  · rw [if_pos ⟨rfl, hrho⟩, if_pos hrho]
  · rw [if_neg (fun hc => hrho hc.2), if_neg hrho]

theorem update_resource (g : Grid) (rho : Int → Int → Bool) (i j : Int)
    (hin : inB i j = true) (hr : g i j = RESOURCE) :
    update_grid g rho i j
      = if check_resource_surrounded i j g then
          (if rho i j then RESOURCE else DEAD)
        else RESOURCE := by
  have h1 : pass1 g i j
      = if check_resource_surrounded i j g then DEAD else RESOURCE := by
    rw [pass1_apply]
    by_cases hsur : check_resource_surrounded i j g = true
    · rw [if_pos ⟨hin, hr, hsur⟩, if_pos hsur]
    · rw [if_neg (fun hc => hsur hc.2.2), if_neg hsur, hr]
  rw [update_grid, spawn_apply _ rho i j hin, pass2_apply_resource g i j hr, h1]
  by_cases hsur : check_resource_surrounded i j g = true <;>
    by_cases hrho : rho i j = true <;>
      simp [hsur, hrho, DEAD, ALIVE, RESOURCE]

theorem mem_offsetRange (p : Nat) (d : Int) :
    d ∈ offsetRange p ↔ -(p : Int) ≤ d ∧ d ≤ (p : Int) := by
  rw [offsetRange, List.mem_map]
  constructor
  · rintro ⟨i, hi, rfl⟩
    rw [List.mem_range] at hi
    rw [Int.ofNat_eq_natCast]
    omega
  · intro h
    refine ⟨(d + p).toNat, ?_, ?_⟩
    · rw [List.mem_range]; omega
    · rw [Int.ofNat_eq_natCast]; omega

theorem offsetRange_pairwise (p : Nat) :
    List.Pairwise (fun a b : Int => a < b) (offsetRange p) := by
  refine List.Pairwise.map (fun i : Nat => Int.ofNat i - (p : Int)) ?_
    (List.pairwise_lt_range (2 * p + 1))
  intro a b hab
  simp only [Int.ofNat_eq_natCast]
  omega

theorem mem_offsetPairs (p : Nat) (d1 d2 : Int) :
    (d1, d2) ∈ offsetPairs p
      ↔ -(p : Int) ≤ d1 ∧ d1 ≤ (p : Int) ∧ -(p : Int) ≤ d2 ∧ d2 ≤ (p : Int) := by
  rw [offsetPairs, List.mem_flatMap]
  constructor
  · rintro ⟨dx, hdx, hmem⟩
    rw [List.mem_map] at hmem
    obtain ⟨dy, hdy, heq⟩ := hmem
    rw [Prod.mk.injEq] at heq
    obtain ⟨rfl, rfl⟩ := heq
    rw [mem_offsetRange] at hdx hdy
    exact ⟨hdx.1, hdx.2, hdy.1, hdy.2⟩
  · rintro ⟨h1, h2, h3, h4⟩
    refine ⟨d1, ?_, ?_⟩
    · rw [mem_offsetRange]; exact ⟨h1, h2⟩
    · rw [List.mem_map]
      exact ⟨d2, by rw [mem_offsetRange]; exact ⟨h3, h4⟩, rfl⟩

/-- The strict row-major (lexicographic) order on offset pairs: the order in
which `resource_in_proximity` scans its window. -/
def lexLT (d e : Int × Int) : Prop :=
  d.1 < e.1 ∨ (d.1 = e.1 ∧ d.2 < e.2)

theorem offsetPairs_pairwise (p : Nat) :
    List.Pairwise lexLT (offsetPairs p) := by
  rw [offsetPairs, List.pairwise_flatMap]
  constructor
  · intro dx _
    refine List.Pairwise.map (fun dy => (dx, dy)) ?_ (offsetRange_pairwise p)
    intro a b hab
    exact Or.inr ⟨rfl, hab⟩
  · refine List.Pairwise.imp ?_ (offsetRange_pairwise p)
    intro a b hab u hu v hv
    rw [List.mem_map] at hu hv
    obtain ⟨yu, _, rfl⟩ := hu
    obtain ⟨yv, _, rfl⟩ := hv
    exact Or.inl hab

theorem findSome?_first {α β : Type} (R : α → α → Prop) (f : α → Option β)
    (l : List α) (hpw : List.Pairwise R l) (b : β)
    (h : l.findSome? f = some b) :
    ∃ a ∈ l, f a = some b ∧ ∀ a2 ∈ l, f a2 ≠ none → (a = a2 ∨ R a a2) := by
  induction l with
  | nil => simp at h
  | cons hd tl ih =>
    rw [List.pairwise_cons] at hpw
    rw [List.findSome?_cons] at h
    split at h
    · next b0 heq =>
        obtain rfl := Option.some.inj h
        refine ⟨hd, List.mem_cons_self hd tl, heq, ?_⟩
        intro a2 ha2 _
        rw [List.mem_cons] at ha2
        rcases ha2 with rfl | ha2
        · exact Or.inl rfl
        · exact Or.inr (hpw.1 a2 ha2)
    · next heq =>
        obtain ⟨a, hamem, hfa, hmin⟩ := ih hpw.2 h
        refine ⟨a, List.mem_cons_of_mem _ hamem, hfa, ?_⟩
        intro a2 ha2 hne
        rw [List.mem_cons] at ha2
        rcases ha2 with rfl | ha2
        · exact absurd heq hne
        · exact hmin a2 ha2 hne

theorem res_prox_some (x y : Int) (g : Grid) (p : Nat) (n1 n2 : Int)
    (h : resource_in_proximity x y g p = some (n1, n2)) :
    inB n1 n2 = true ∧ g n1 n2 = RESOURCE ∧
      x - p ≤ n1 ∧ n1 ≤ x + p ∧ y - p ≤ n2 ∧ n2 ≤ y + p := by
  obtain ⟨d, hd, hf⟩ := List.exists_of_findSome?_eq_some h
  obtain ⟨d1, d2⟩ := d
  rw [mem_offsetPairs] at hd
  dsimp only at hf
  by_cases hc : inB (x + d1) (y + d2) = true ∧ g (x + d1) (y + d2) = RESOURCE
  · rw [if_pos hc] at hf
    obtain ⟨h1, h2⟩ := Prod.mk.injEq .. |>.mp (Option.some.inj hf)
    rw [← h1, ← h2]
    exact ⟨hc.1, hc.2, by omega, by omega, by omega, by omega⟩
  · rw [if_neg hc] at hf
    exact Option.noConfusion hf

theorem res_prox_none_iff (x y : Int) (g : Grid) (p : Nat) :
    resource_in_proximity x y g p = none
      ↔ ∀ d1 d2 : Int, -(p : Int) ≤ d1 → d1 ≤ (p : Int) →
          -(p : Int) ≤ d2 → d2 ≤ (p : Int) →
          inB (x + d1) (y + d2) = true → g (x + d1) (y + d2) ≠ RESOURCE := by
  rw [resource_in_proximity, List.findSome?_eq_none_iff]
  constructor
  · intro hall d1 d2 h1 h2 h3 h4 hin hres
    have h5 := hall (d1, d2) ((mem_offsetPairs p d1 d2).mpr ⟨h1, h2, h3, h4⟩)
    dsimp only at h5
    rw [if_pos ⟨hin, hres⟩] at h5
    exact Option.noConfusion h5
  · intro hall d hd
    obtain ⟨d1, d2⟩ := d
    rw [mem_offsetPairs] at hd
    dsimp only
    rw [if_neg (fun hc => hall d1 d2 hd.1 hd.2.1 hd.2.2.1 hd.2.2.2 hc.1 hc.2)]

theorem res_prox_minimal (x y : Int) (g : Grid) (p : Nat) (n1 n2 : Int)
    (h : resource_in_proximity x y g p = some (n1, n2)) :
    ∀ i j : Int, inB i j = true → x - p ≤ i → i ≤ x + p → y - p ≤ j →
      j ≤ y + p → g i j = RESOURCE → (n1 < i ∨ (n1 = i ∧ n2 ≤ j)) := by
  intro i j hin hb1 hb2 hb3 hb4 hres
  obtain ⟨a, hamem, hfa, hmin⟩ :=
    findSome?_first lexLT _ (offsetPairs p) (offsetPairs_pairwise p) (n1, n2) h
  obtain ⟨a1, a2⟩ := a
  dsimp only at hfa
  by_cases hc : inB (x + a1) (y + a2) = true ∧ g (x + a1) (y + a2) = RESOURCE
  · rw [if_pos hc] at hfa
    obtain ⟨e1, e2⟩ := Prod.mk.injEq .. |>.mp (Option.some.inj hfa)
    have hd2mem : (i - x, j - y) ∈ offsetPairs p :=
      (mem_offsetPairs p (i - x) (j - y)).mpr ⟨by omega, by omega, by omega, by omega⟩
    have he1 : x + (i - x) = i := by ring
    have he2 : y + (j - y) = j := by ring
    have hfd2 : (fun d : Int × Int =>
        if inB (x + d.1) (y + d.2) = true ∧ g (x + d.1) (y + d.2) = RESOURCE then
          some (x + d.1, y + d.2)
        else none) (i - x, j - y) ≠ none := by
      dsimp only
      rw [he1, he2, if_pos ⟨hin, hres⟩]
      exact Option.noConfusion
    have := hmin (i - x, j - y) hd2mem hfd2
    rcases this with heq | hlt
    · obtain ⟨q1, q2⟩ := Prod.mk.injEq .. |>.mp heq
      omega
    · rcases hlt with h1 | ⟨h1, h2⟩
      · dsimp only at h1
        omega
      · dsimp only at h1 h2
        omega
  · rw [if_neg hc] at hfa
    exact Option.noConfusion hfa

theorem sub_sign_bound (a : Int) (h1 : -3 ≤ a) (h2 : a ≤ 3) :
    -2 ≤ a - a.sign ∧ a - a.sign ≤ 2 := by
  rcases lt_trichotomy a 0 with h | h | h
  · rw [Int.sign_eq_neg_one_iff_neg.mpr h]
    omega
  · rw [h, Int.sign_zero]
    omega
  · rw [Int.sign_eq_one_iff_pos.mpr h]
    omega

theorem mover_target_near_resource (g : Grid) (k1 k2 r1 r2 : Int)
    (hr : resource_in_proximity k1 k2 g 3 = some (r1, r2)) :
    resource_in_proximity (moveTarget k1 k2 r1 r2).1
      (moveTarget k1 k2 r1 r2).2 g 3 ≠ none := by
  obtain ⟨hin, hres, hb1, hb2, hb3, hb4⟩ := res_prox_some k1 k2 g 3 r1 r2 hr
  have ht1 : (moveTarget k1 k2 r1 r2).1 = k1 + (r1 - k1).sign := rfl
  have ht2 : (moveTarget k1 k2 r1 r2).2 = k2 + (r2 - k2).sign := rfl
  obtain ⟨hs1a, hs1b⟩ := sub_sign_bound (r1 - k1) (by omega) (by omega)
  obtain ⟨hs2a, hs2b⟩ := sub_sign_bound (r2 - k2) (by omega) (by omega)
  intro hnone
  rw [res_prox_none_iff] at hnone
  have he1 : (moveTarget k1 k2 r1 r2).1 + (r1 - (moveTarget k1 k2 r1 r2).1) = r1 := by
    ring
  have he2 : (moveTarget k1 k2 r1 r2).2 + (r2 - (moveTarget k1 k2 r1 r2).2) = r2 := by
    ring
  refine hnone (r1 - (moveTarget k1 k2 r1 r2).1) (r2 - (moveTarget k1 k2 r1 r2).2)
    ?_ ?_ ?_ ?_ ?_ ?_
  · rw [ht1]; omega
  · rw [ht1]; omega
  · rw [ht2]; omega
  · rw [ht2]; omega
  · rw [he1, he2]; exact hin
  · rw [he1, he2]; exact hres

theorem writes2_of_none (g : Grid) (i j : Int)
    (hnone : resource_in_proximity i j g 3 = none)
    (hcnt : count_neighbors i j g ≠ 3) :
    ∀ k ∈ cells, ¬writes2 g k.1 k.2 i j := by
  rintro k _ (⟨hal, ⟨r1, r2⟩, hr, hin, hdd, htc⟩ | ⟨_, _, hc⟩)
  · have hnear := mover_target_near_resource g k.1 k.2 r1 r2 hr
    rw [htc] at hnear
    exact hnear hnone
  · exact hcnt hc

theorem foldl_add_count {α : Type} (step : Nat → α → Nat) (chi : α → Nat)
    (hstep : ∀ t a, step t a = t + chi a) (l : List α) :
    ∀ t : Nat, l.foldl step t = t + (l.map chi).sum := by
  induction l with
  | nil => intro t; simp
  | cons a l ih =>
    intro t
    rw [List.foldl_cons, hstep, ih, List.map_cons, List.sum_cons]
    omega

theorem count_neighbors_sum (g : Grid) (x y : Int) :
    count_neighbors x y g
      = (neighborOffsets.map (fun dx =>
          (neighborOffsets.map (fun dy =>
            if dx = 0 ∧ dy = 0 then 0
            else if inB (x + dx) (y + dy) = true ∧
                g (x + dx) (y + dy) = ALIVE then 1
            else 0)).sum)).sum := by
  have hinner : ∀ dx : Int, ∀ t : Nat,
      neighborOffsets.foldl
        (fun total dy =>
          if dx = 0 ∧ dy = 0 then total
          else if inB (x + dx) (y + dy) ∧ g (x + dx) (y + dy) = ALIVE then
            total + 1
          else total)
        t
        = t + (neighborOffsets.map (fun dy =>
            if dx = 0 ∧ dy = 0 then 0
            else if inB (x + dx) (y + dy) = true ∧
                g (x + dx) (y + dy) = ALIVE then 1
            else 0)).sum := by
    intro dx
    refine foldl_add_count _ _ ?_ neighborOffsets
    intro t a
    split_ifs <;> omega
  have houter := foldl_add_count
    (fun total dx =>
      neighborOffsets.foldl
        (fun total dy =>
          if dx = 0 ∧ dy = 0 then total
          else if inB (x + dx) (y + dy) ∧ g (x + dx) (y + dy) = ALIVE then
            total + 1
          else total)
        total)
    (fun dx =>
      (neighborOffsets.map (fun dy =>
        if dx = 0 ∧ dy = 0 then 0
        else if inB (x + dx) (y + dy) = true ∧
            g (x + dx) (y + dy) = ALIVE then 1
        else 0)).sum)
    (fun t dx => hinner dx t)
    neighborOffsets
  rw [count_neighbors, houter 0, Nat.zero_add]

/-- The 8-element Moore neighborhood offset set. -/
def mooreOffsets : Finset (Int × Int) :=
  (Finset.Icc (-1 : Int) 1 ×ˢ Finset.Icc (-1 : Int) 1).erase (0, 0)

theorem count_neighbors_card (g : Grid) (x y : Int) :
    count_neighbors x y g
      = (mooreOffsets.filter
          (fun d => inB (x + d.1) (y + d.2) = true ∧
            g (x + d.1) (y + d.2) = ALIVE)).card := by
  have hbase : mooreOffsets
      = ({((-1 : Int), (-1 : Int)), (-1, 0), (-1, 1), (0, -1), (0, 1),
          (1, -1), (1, 0), (1, 1)} : Finset (Int × Int)) := by decide
  rw [count_neighbors_sum, Finset.card_filter, hbase]
  rw [Finset.sum_insert (by decide), Finset.sum_insert (by decide),
    Finset.sum_insert (by decide), Finset.sum_insert (by decide),
    Finset.sum_insert (by decide), Finset.sum_insert (by decide),
    Finset.sum_insert (by decide), Finset.sum_singleton]
  simp only [neighborOffsets, List.map_cons, List.map_nil, List.sum_cons,
    List.sum_nil]
  norm_num
  split_ifs <;> omega

theorem count_neighbors_le_eight (g : Grid) (x y : Int) :
    count_neighbors x y g ≤ 8 := by
  rw [count_neighbors_card]
  have h2 := Finset.card_le_card (Finset.filter_subset
    (fun d : Int × Int => inB (x + d.1) (y + d.2) = true ∧
      g (x + d.1) (y + d.2) = ALIVE) mooreOffsets)
  have h3 : mooreOffsets.card = 8 := by decide
  omega


/-- The three legal cell states. -/
def validState (v : Nat) : Prop := v = DEAD ∨ v = ALIVE ∨ v = RESOURCE

theorem setCell_valid (acc : Grid) (x y : Int) (v : Nat) (hv : validState v)
    (hacc : ∀ a b, validState (acc a b)) :
    ∀ i j, validState (setCell acc x y v i j) := by
  intro i j
  simp only [setCell]
  split_ifs
  · exact hv
  · exact hacc i j

theorem foldl_valid (step : Grid → (Int × Int) → Grid)
    (hstep : ∀ acc c, (∀ a b, validState (acc a b)) →
      ∀ i j, validState (step acc c i j))
    (l : List (Int × Int)) (acc : Grid) (hacc : ∀ a b, validState (acc a b)) :
    ∀ i j, validState ((l.foldl step acc) i j) := by
  induction l generalizing acc with
  | nil => exact hacc
  | cons k l ih => exact ih (step acc k) (hstep acc k hacc)

theorem step1_valid (g acc : Grid) (c : Int × Int)
    (hacc : ∀ a b, validState (acc a b)) :
    ∀ i j, validState (step1 g acc c i j) := by
  intro i j
  rw [step1]
  split_ifs
  · exact setCell_valid acc c.1 c.2 DEAD (Or.inl rfl) hacc i j
  · exact hacc i j

theorem step2_valid (g acc : Grid) (c : Int × Int)
    (hacc : ∀ a b, validState (acc a b)) :
    ∀ i j, validState (step2 g acc c i j) := by
  intro i j
  obtain ⟨k1, k2⟩ := c
  rw [step2_pair]
  split_ifs with h1 h2 h3
  · cases hrp : resource_in_proximity k1 k2 g 3 with
    | none =>
        rw [moveStep_none]
        split_ifs
        · exact setCell_valid acc k1 k2 DEAD (Or.inl rfl) hacc i j
        · exact setCell_valid acc k1 k2 ALIVE (Or.inr (Or.inl rfl)) hacc i j
        · exact hacc i j
    | some r =>
        obtain ⟨r1, r2⟩ := r
        rw [moveStep_some]
        split_ifs
        · refine setCell_valid _ _ _ ALIVE (Or.inr (Or.inl rfl)) ?_ i j
          refine setCell_valid _ _ _ DEAD (Or.inl rfl) ?_
          exact setCell_valid _ _ _ ALIVE (Or.inr (Or.inl rfl)) hacc
        · refine setCell_valid _ _ _ DEAD (Or.inl rfl) ?_ i j
          exact setCell_valid _ _ _ ALIVE (Or.inr (Or.inl rfl)) hacc
        · exact hacc i j
  · exact setCell_valid acc k1 k2 ALIVE (Or.inr (Or.inl rfl)) hacc i j
  · exact hacc i j
  · exact hacc i j

theorem spawnStep_valid (rho : Int → Int → Bool) (acc : Grid) (c : Int × Int)
    (hacc : ∀ a b, validState (acc a b)) :
    ∀ i j, validState (spawnStep rho acc c i j) := by
  intro i j
  rw [spawnStep]
  split_ifs
  · exact setCell_valid acc c.1 c.2 RESOURCE (Or.inr (Or.inr rfl)) hacc i j
  · exact hacc i j

theorem createStep_valid (ra rr : Int → Int → Bool) (acc : Grid) (c : Int × Int)
    (hacc : ∀ a b, validState (acc a b)) :
    ∀ i j, validState (createStep ra rr acc c i j) := by
  intro i j
  rw [createStep]
  split_ifs
  · exact setCell_valid acc c.1 c.2 ALIVE (Or.inr (Or.inl rfl)) hacc i j
  · exact setCell_valid acc c.1 c.2 RESOURCE (Or.inr (Or.inr rfl)) hacc i j
  · exact hacc i j

theorem update_grid_valid (g : Grid) (rho : Int → Int → Bool)
    (hg : ∀ a b, validState (g a b)) :
    ∀ i j, validState (update_grid g rho i j) := by
  have h1 : ∀ a b, validState (pass1 g a b) :=
    foldl_valid (step1 g) (step1_valid g) cells g hg
  have h2 : ∀ a b, validState (pass2 g (pass1 g) a b) :=
    foldl_valid (step2 g) (step2_valid g) cells (pass1 g) h1
  intro i j
  rw [update_grid, spawn_new_resources]
  exact foldl_valid (spawnStep rho) (spawnStep_valid rho) cells
    (pass2 g (pass1 g)) h2 i j

theorem create_grid_valid (ra rr : Int → Int → Bool) :
    ∀ i j, validState (create_grid ra rr i j) := by
  intro i j
  rw [create_grid]
  exact foldl_valid (createStep ra rr) (createStep_valid ra rr) cells
    (fun _ _ => DEAD) (fun _ _ => Or.inl rfl) i j

theorem check_surrounded_iff (g : Grid) (x y : Int) :
    check_resource_surrounded x y g = true
      ↔ ∀ d ∈ mooreOffsets, inB (x + d.1) (y + d.2) = true →
          g (x + d.1) (y + d.2) = ALIVE ∨ g (x + d.1) (y + d.2) = RESOURCE := by
  rw [check_resource_surrounded, List.all_eq_true]
  constructor
  · intro hall d hd hin
    obtain ⟨d1, d2⟩ := d
    rw [mooreOffsets, Finset.mem_erase, Finset.mem_product, Finset.mem_Icc,
      Finset.mem_Icc] at hd
    have hd1 : d1 ∈ neighborOffsets := by
      simp only [neighborOffsets, List.mem_cons, List.not_mem_nil, or_false]
      omega
    have h1 := hall d1 hd1
    rw [List.all_eq_true] at h1
    have hd2 : d2 ∈ neighborOffsets := by
      simp only [neighborOffsets, List.mem_cons, List.not_mem_nil, or_false]
      omega
    have h2 := h1 d2 hd2
    have hne : ¬(d1 = 0 ∧ d2 = 0) := by
      rintro ⟨rfl, rfl⟩
      exact hd.1 rfl
    rw [if_neg hne, if_pos hin, decide_eq_true_eq] at h2
    exact h2
  · intro hmo dx hdx
    rw [List.all_eq_true]
    intro dy hdy
    by_cases hz : dx = 0 ∧ dy = 0
    · rw [if_pos hz]
    · rw [if_neg hz]
      by_cases hin : inB (x + dx) (y + dy) = true
      · rw [if_pos hin, decide_eq_true_eq]
        refine hmo (dx, dy) ?_ hin
        rw [mooreOffsets, Finset.mem_erase, Finset.mem_product, Finset.mem_Icc,
          Finset.mem_Icc]
        simp only [neighborOffsets, List.mem_cons, List.not_mem_nil, or_false] at hdx hdy
        constructor
        · intro heq
          rw [Prod.mk.injEq] at heq
          exact hz heq
        · rcases hdx with rfl | rfl | rfl <;> rcases hdy with rfl | rfl | rfl <;>
            decide
      · rw [if_neg hin]


/-! Concrete grids and draw oracles used to instantiate the claims. -/

/-- The spawn oracle whose draw succeeds at every cell. -/
def rhoTrue : Int → Int → Bool := fun _ _ => true

/-- The spawn oracle whose draw fails at every cell. -/
def rhoFalse : Int → Int → Bool := fun _ _ => false

/-- The all-`DEAD` grid. -/
def gAllDead : Grid := fun _ _ => DEAD

/-- An `ALIVE` cell at `(1, 1)` whose nearest resource `(1, 2)` is also its
movement candidate, so the move is blocked; the cell has no alive neighbor. -/
def gC1 : Grid := fun i j =>
  if i = 1 ∧ j = 1 then ALIVE
  else if i = 1 ∧ j = 2 then RESOURCE
  else DEAD

/-- An `ALIVE` cell at `(5, 5)` with its sole resource at `(5, 8)`: the
movement candidate `(5, 6)` is dead, so the cell relocates. -/
def gC2 : Grid := fun i j =>
  if i = 5 ∧ j = 5 then ALIVE
  else if i = 5 ∧ j = 8 then RESOURCE
  else DEAD

/-- Two resources at offsets `(-2, -2)` and `(1, 1)` from `(10, 10)`. -/
def gC3 : Grid := fun i j =>
  if i = 8 ∧ j = 8 then RESOURCE
  else if i = 11 ∧ j = 11 then RESOURCE
  else DEAD

/-- A resource at `(5, 5)` whose eight Moore neighbors are all `ALIVE`. -/
def gC4 : Grid := fun i j =>
  if i = 5 ∧ j = 5 then RESOURCE
  else if 4 ≤ i ∧ i ≤ 6 ∧ 4 ≤ j ∧ j ≤ 6 then ALIVE
  else DEAD

/-- A resource at `(5, 5)` with all eight Moore neighbors `DEAD`. -/
def gC4b : Grid := fun i j =>
  if i = 5 ∧ j = 5 then RESOURCE else DEAD

/-- Three `ALIVE` cells adjacent to the `DEAD` corner `(0, 0)`, no resource
anywhere. -/
def gC5 : Grid := fun i j =>
  if (i = 0 ∧ j = 1) ∨ (i = 1 ∧ j = 0) ∨ (i = 1 ∧ j = 1) then ALIVE else DEAD

/-- A single `ALIVE` cell at `(0, 0)`. -/
def gW1 : Grid := fun i j => if i = 0 ∧ j = 0 then ALIVE else DEAD

/-- The same grid as `gW1` with the conjunction written the other way. -/
def gW2 : Grid := fun i j => if j = 0 ∧ i = 0 then ALIVE else DEAD

/-- C3: for every grid, cell and radius, `resource_in_proximity` returns
the first in-bounds `RESOURCE` cell of its row-major (outer row offset,
inner column offset) scan, or `none` when no in-bounds resource lies in the
window: any returned cell is an in-bounds resource within Chebyshev radius
`p`, every other in-bounds resource in the window is row-major-lexicographically
at or after it, and the result is `none` exactly when the window holds no
in-bounds resource. -/
theorem claim_C3_scan_order (g : Grid) (x y : Int) (p : Nat) :
    (∀ n1 n2 : Int, resource_in_proximity x y g p = some (n1, n2) →
      inB n1 n2 = true ∧ g n1 n2 = RESOURCE ∧
        x - p ≤ n1 ∧ n1 ≤ x + p ∧ y - p ≤ n2 ∧ n2 ≤ y + p ∧
        (∀ i j : Int, inB i j = true → x - p ≤ i → i ≤ x + p → y - p ≤ j →
          j ≤ y + p → g i j = RESOURCE → (n1 < i ∨ (n1 = i ∧ n2 ≤ j))))
    ∧ (resource_in_proximity x y g p = none ↔
        ∀ i j : Int, x - p ≤ i → i ≤ x + p → y - p ≤ j → j ≤ y + p →
          inB i j = true → g i j ≠ RESOURCE) := by
  constructor
  · intro n1 n2 h
    obtain ⟨hin, hres, hb1, hb2, hb3, hb4⟩ := res_prox_some x y g p n1 n2 h
    exact ⟨hin, hres, hb1, hb2, hb3, hb4, res_prox_minimal x y g p n1 n2 h⟩
  · rw [res_prox_none_iff]
    constructor
    · intro hall i j h1 h2 h3 h4 hin hres
      have he1 : x + (i - x) = i := by ring
      have he2 : y + (j - y) = j := by ring
      have h5 := hall (i - x) (j - y) (by omega) (by omega) (by omega) (by omega)
      rw [he1, he2] at h5
      exact h5 hin hres
    · intro hall d1 d2 h1 h2 h3 h4 hin hres
      exact hall (x + d1) (y + d2) (by omega) (by omega) (by omega) (by omega)
        hin hres

theorem claim_C3_scan_order_witness :
    resource_in_proximity 10 10 gC3 3 = some (8, 8) ∧
      gC3 8 8 = RESOURCE ∧ gC3 11 11 = RESOURCE ∧
      ((8 : Int) < 11 ∨ ((8 : Int) = 11 ∧ (8 : Int) ≤ 11)) := by
  have h := (claim_C3_scan_order gC3 10 10 3).1 8 8 (by decide)
  exact ⟨by decide, h.2.1,  by decide,
    h.2.2.2.2.2.2 11 11 (by decide) (by decide) (by decide) (by decide)
      (by decide) (by decide)⟩

/-- C6: `count_neighbors` returns exactly the number of the eight Moore
offset cells of `(x, y)` (the cell itself excluded) that are in bounds and
`ALIVE` — out-of-bounds neighbors are skipped, with no wraparound — and the
result never exceeds 8. -/
theorem claim_C6_count_neighbors (g : Grid) (x y : Int) :
    count_neighbors x y g
        = (mooreOffsets.filter
            (fun d => inB (x + d.1) (y + d.2) = true ∧
              g (x + d.1) (y + d.2) = ALIVE)).card
      ∧ count_neighbors x y g ≤ 8 :=
  ⟨count_neighbors_card g x y, count_neighbors_le_eight g x y⟩

/-- C7: the consume-resource branch of the movement rule is unreachable:
whenever `resource_in_proximity` senses a resource and the movement
candidate is `DEAD` in the old grid (the only situation in which the branch
is reached), the candidate differs from the sensed resource's coordinates,
so a relocating cell never occupies a cell that is `RESOURCE` in the old
grid. -/
theorem claim_C7_consume_unreachable (g : Grid) (x y r1 r2 : Int)
    (hr : resource_in_proximity x y g 3 = some (r1, r2))
    (hdead : g (moveTarget x y r1 r2).1 (moveTarget x y r1 r2).2 = DEAD) :
    moveTarget x y r1 r2 ≠ (r1, r2) := by
  intro heq
  have hres := (res_prox_some x y g 3 r1 r2 hr).2.1
  obtain ⟨h1, h2⟩ := Prod.ext_iff.mp heq
  rw [h1, h2] at hdead
  rw [hdead] at hres
  exact resource_ne_dead hres.symm

theorem claim_C7_consume_unreachable_witness :
    resource_in_proximity 5 5 gC2 3 = some (5, 8) ∧
      gC2 (moveTarget 5 5 5 8).1 (moveTarget 5 5 5 8).2 = DEAD ∧
      moveTarget 5 5 5 8 ≠ (5, 8) :=
  ⟨by decide, by decide,
    claim_C7_consume_unreachable gC2 5 5 5 8 (by decide) (by decide)⟩

/-- C8: the resource-spawning pass changes only cells read as `DEAD`, and
only to `RESOURCE`: a `DEAD` cell becomes `RESOURCE` exactly when its
Bernoulli draw succeeds, and every non-`DEAD` cell is left unchanged. -/
theorem claim_C8_spawn_frame (g : Grid) (rho : Int → Int → Bool) (i j : Int)
    (hin : inB i j = true) :
    (g i j = DEAD →
        spawn_new_resources g rho i j = if rho i j then RESOURCE else DEAD)
    ∧ (g i j ≠ DEAD → spawn_new_resources g rho i j = g i j) := by
  constructor
  · intro hd
    rw [spawn_apply g rho i j hin]
    by_cases hr : rho i j = true
    · rw [if_pos ⟨hd, hr⟩, if_pos hr]
    · rw [if_neg (fun hc => hr hc.2), if_neg hr]
      exact hd
  · intro hnd
    rw [spawn_apply g rho i j hin, if_neg (fun hc => hnd hc.1)]

theorem claim_C8_spawn_frame_witness :
    gAllDead 0 0 = DEAD ∧
      spawn_new_resources gAllDead rhoTrue 0 0 = RESOURCE ∧
      gC2 5 5 ≠ DEAD ∧
      spawn_new_resources gC2 rhoTrue 5 5 = gC2 5 5 :=
  ⟨by decide,
    ((claim_C8_spawn_frame gAllDead rhoTrue 0 0 (by decide)).1 (by decide)).trans
      (by decide),
    by decide,
    (claim_C8_spawn_frame gC2 rhoTrue 5 5 (by decide)).2 (by decide)⟩

/-- C9: `update_grid` is deterministic: two extensionally equal input grids
with the same per-cell random draws produce extensionally equal output
grids (the step is a pure function of the grid plus the random source). -/
theorem claim_C9_deterministic (g1 g2 : Grid) (rho1 rho2 : Int → Int → Bool)
    (hg : ∀ i j, g1 i j = g2 i j) (hrho : ∀ i j, rho1 i j = rho2 i j) :
    ∀ i j, update_grid g1 rho1 i j = update_grid g2 rho2 i j := by
  have h1 : g1 = g2 := funext fun i => funext fun j => hg i j
  have h2 : rho1 = rho2 := funext fun i => funext fun j => hrho i j
  rw [h1, h2]
  intro i j
  rfl

theorem claim_C9_deterministic_witness :
    update_grid gW1 rhoFalse 0 0 = update_grid gW2 rhoFalse 0 0 :=
  claim_C9_deterministic gW1 gW2 rhoFalse rhoFalse
    (fun i j => by rw [gW1, gW2]; exact if_congr and_comm rfl rfl)
    (fun _ _ => rfl) 0 0

/-- C10: the three-state invariant: every cell of the initial grid is one
of `DEAD`, `ALIVE`, `RESOURCE`, and `update_grid` maps any grid satisfying
the invariant to a grid satisfying it. -/
theorem claim_C10_three_states :
    (∀ (ra rr : Int → Int → Bool) (i j : Int),
        create_grid ra rr i j = DEAD ∨ create_grid ra rr i j = ALIVE ∨
          create_grid ra rr i j = RESOURCE)
    ∧ (∀ (g : Grid) (rho : Int → Int → Bool),
        (∀ i j, g i j = DEAD ∨ g i j = ALIVE ∨ g i j = RESOURCE) →
        ∀ i j, update_grid g rho i j = DEAD ∨ update_grid g rho i j = ALIVE ∨
          update_grid g rho i j = RESOURCE) :=
  ⟨fun ra rr i j => create_grid_valid ra rr i j,
    fun g rho hg i j => update_grid_valid g rho hg i j⟩

theorem claim_C10_three_states_witness :
    (create_grid rhoFalse rhoFalse 0 0 = DEAD ∨
        create_grid rhoFalse rhoFalse 0 0 = ALIVE ∨
        create_grid rhoFalse rhoFalse 0 0 = RESOURCE)
    ∧ (update_grid gAllDead rhoFalse 0 0 = DEAD ∨
        update_grid gAllDead rhoFalse 0 0 = ALIVE ∨
        update_grid gAllDead rhoFalse 0 0 = RESOURCE) :=
  ⟨claim_C10_three_states.1 rhoFalse rhoFalse 0 0,
    claim_C10_three_states.2 gAllDead rhoFalse (fun _ _ => Or.inl rfl) 0 0⟩

/-- C1 (amended): when an `ALIVE` cell senses a resource but its movement
candidate is out of bounds or not `DEAD`, the cell does not move and stays
`ALIVE` regardless of its neighbor count — the survival rule is not applied,
because the Conway rules sit in the `else` branch of `if resource_pos:`. -/
theorem claim_C1_blocked_move (g : Grid) (rho : Int → Int → Bool)
    (i j r1 r2 : Int) (hin : inB i j = true) (ha : g i j = ALIVE)
    (hr : resource_in_proximity i j g 3 = some (r1, r2))
    (hblocked : ¬(inB (moveTarget i j r1 r2).1 (moveTarget i j r1 r2).2 = true ∧
      g (moveTarget i j r1 r2).1 (moveTarget i j r1 r2).2 = DEAD)) :
    update_grid g rho i j = ALIVE := by
  rw [update_alive g rho i j hin ha]
  have han : aliveNext g i j = ALIVE := by
    rw [aliveNext, hr, aliveNextAux_some, if_neg hblocked]
  rw [han, if_neg (fun hc => alive_ne_dead hc.1)]

theorem claim_C1_blocked_move_counterexample :
    gC1 1 1 = ALIVE ∧
      resource_in_proximity 1 1 gC1 3 = some (1, 2) ∧
      ¬(inB (moveTarget 1 1 1 2).1 (moveTarget 1 1 1 2).2 = true ∧
        gC1 (moveTarget 1 1 1 2).1 (moveTarget 1 1 1 2).2 = DEAD) ∧
      count_neighbors 1 1 gC1 = 0 ∧
      update_grid gC1 rhoFalse 1 1 = ALIVE ∧ ALIVE ≠ DEAD := by
  refine ⟨by decide, by decide, by decide, by decide, ?_, by decide⟩
  rw [update_alive gC1 rhoFalse 1 1 (by decide) (by decide)]
  decide

theorem claim_C1_blocked_move_witness :
    inB 1 1 = true ∧ gC1 1 1 = ALIVE ∧
      resource_in_proximity 1 1 gC1 3 = some (1, 2) ∧
      update_grid gC1 rhoTrue 1 1 = ALIVE :=
  ⟨by decide, by decide, by decide,
    claim_C1_blocked_move gC1 rhoTrue 1 1 1 2 (by decide) (by decide)
      (by decide) (by decide)⟩

/-- C2 (amended): when an `ALIVE` cell senses a resource and the movement
candidate is in bounds and `DEAD` in the old grid, the candidate is `ALIVE`
in the next grid and the origin cell is `DEAD` — unless the Pass-3 spawn
draw at the origin succeeds, in which case the origin is `RESOURCE`. -/
theorem claim_C2_relocation (g : Grid) (rho : Int → Int → Bool)
    (i j r1 r2 : Int) (hin : inB i j = true) (ha : g i j = ALIVE)
    (hr : resource_in_proximity i j g 3 = some (r1, r2))
    (htin : inB (moveTarget i j r1 r2).1 (moveTarget i j r1 r2).2 = true)
    (htd : g (moveTarget i j r1 r2).1 (moveTarget i j r1 r2).2 = DEAD) :
    update_grid g rho (moveTarget i j r1 r2).1 (moveTarget i j r1 r2).2 = ALIVE
    ∧ update_grid g rho i j = if rho i j then RESOURCE else DEAD := by
  constructor
  · refine update_dead_pos g rho _ _ htin htd
      ⟨(i, j), (mem_cells (i, j)).mpr hin, Or.inl ⟨ha, (r1, r2), hr, htin, htd, rfl⟩⟩
  · rw [update_alive g rho i j hin ha]
    have han : aliveNext g i j = DEAD := by
      rw [aliveNext, hr, aliveNextAux_some, if_pos ⟨htin, htd⟩]
    rw [han]
    by_cases hrho : rho i j = true
    · rw [if_pos ⟨rfl, hrho⟩, if_pos hrho]
    · rw [if_neg (fun hc => hrho hc.2), if_neg hrho]

theorem claim_C2_relocation_counterexample :
    gC2 5 5 = ALIVE ∧
      resource_in_proximity 5 5 gC2 3 = some (5, 8) ∧
      moveTarget 5 5 5 8 = (5, 6) ∧ inB 5 6 = true ∧ gC2 5 6 = DEAD ∧
      update_grid gC2 rhoTrue 5 6 = ALIVE ∧
      update_grid gC2 rhoTrue 5 5 = RESOURCE ∧ RESOURCE ≠ DEAD := by
  refine ⟨by decide, by decide, by decide, by decide, by decide, ?_, ?_, by decide⟩
  · exact update_dead_pos gC2 rhoTrue 5 6 (by decide) (by decide)
      ⟨(5, 5), (mem_cells (5, 5)).mpr (by decide),
        Or.inl ⟨by decide, (5, 8), by decide, by decide, by decide, by decide⟩⟩
  · rw [update_alive gC2 rhoTrue 5 5 (by decide) (by decide)]
    decide

theorem claim_C2_relocation_witness :
    gC2 5 5 = ALIVE ∧
      resource_in_proximity 5 5 gC2 3 = some (5, 8) ∧
      update_grid gC2 rhoFalse 5 6 = ALIVE ∧
      update_grid gC2 rhoFalse 5 5 = DEAD := by
  have h := claim_C2_relocation gC2 rhoFalse 5 5 5 8 (by decide) (by decide)
    (by decide) (by decide) (by decide)
  exact ⟨by decide, by decide, h.1, h.2.trans (by decide)⟩

/-- C4 (amended): a `RESOURCE` cell all of whose in-bounds Moore neighbors
are `ALIVE` or `RESOURCE` is removed by Pass 1 and so ends the generation
`DEAD` — unless the Pass-3 spawn draw at that cell succeeds, in which case
it ends `RESOURCE`; a `RESOURCE` cell with at least one in-bounds `DEAD`
Moore neighbor remains `RESOURCE` in the next grid. -/
theorem claim_C4_surrounded_resource (g : Grid) (rho : Int → Int → Bool)
    (i j : Int) (hin : inB i j = true) (hres : g i j = RESOURCE) :
    ((∀ d ∈ mooreOffsets, inB (i + d.1) (j + d.2) = true →
        g (i + d.1) (j + d.2) = ALIVE ∨ g (i + d.1) (j + d.2) = RESOURCE) →
      update_grid g rho i j = if rho i j then RESOURCE else DEAD)
    ∧ ((∃ d ∈ mooreOffsets, inB (i + d.1) (j + d.2) = true ∧
        g (i + d.1) (j + d.2) = DEAD) →
      update_grid g rho i j = RESOURCE) := by
  rw [update_resource g rho i j hin hres]
  constructor
  · intro hsur
    rw [if_pos ((check_surrounded_iff g i j).mpr hsur)]
  · rintro ⟨d, hd, hdin, hddead⟩
    have hnsur : ¬(check_resource_surrounded i j g = true) := by
      intro hc
      rcases (check_surrounded_iff g i j).mp hc d hd hdin with h | h
      · rw [hddead] at h
        exact alive_ne_dead h.symm
      · rw [hddead] at h
        exact resource_ne_dead h.symm
    rw [if_neg hnsur]

theorem claim_C4_surrounded_resource_counterexample :
    gC4 5 5 = RESOURCE ∧
      (∀ d ∈ mooreOffsets, inB (5 + d.1) (5 + d.2) = true →
        gC4 (5 + d.1) (5 + d.2) = ALIVE ∨ gC4 (5 + d.1) (5 + d.2) = RESOURCE) ∧
      update_grid gC4 rhoTrue 5 5 = RESOURCE ∧ RESOURCE ≠ DEAD := by
  refine ⟨by decide, by decide, ?_, by decide⟩
  rw [update_resource gC4 rhoTrue 5 5 (by decide) (by decide)]
  decide

theorem claim_C4_surrounded_resource_witness :
    update_grid gC4 rhoFalse 5 5 = DEAD ∧
      update_grid gC4b rhoFalse 5 5 = RESOURCE := by
  constructor
  · have h := (claim_C4_surrounded_resource gC4 rhoFalse 5 5 (by decide)
      (by decide)).1 (by decide)
    exact h.trans (by decide)
  · exact (claim_C4_surrounded_resource gC4b rhoFalse 5 5 (by decide)
      (by decide)).2 ⟨(-1, -1), by decide, by decide, by decide⟩

/-- C5 (amended): for a cell with no resource within Chebyshev radius 3 the
classic Conway rules apply, except that a cell whose outcome is `DEAD` ends
the generation `RESOURCE` instead when its Pass-3 spawn draw succeeds: an
`ALIVE` cell with neighbor count below 2 or above 3 ends `DEAD` (or spawned
`RESOURCE`), with count 2 or 3 it stays `ALIVE`; a `DEAD` cell becomes
`ALIVE` exactly on count 3, and otherwise stays `DEAD` (or becomes spawned
`RESOURCE`). -/
theorem claim_C5_conway_rules (g : Grid) (rho : Int → Int → Bool)
    (i j : Int) (hin : inB i j = true)
    (hnone : resource_in_proximity i j g 3 = none) :
    (g i j = ALIVE →
      ((count_neighbors i j g < 2 ∨ count_neighbors i j g > 3 →
          update_grid g rho i j = if rho i j then RESOURCE else DEAD)
        ∧ (count_neighbors i j g = 2 ∨ count_neighbors i j g = 3 →
          update_grid g rho i j = ALIVE)))
    ∧ (g i j = DEAD →
        ((count_neighbors i j g = 3 → update_grid g rho i j = ALIVE)
          ∧ (count_neighbors i j g ≠ 3 →
            update_grid g rho i j = if rho i j then RESOURCE else DEAD))) := by
  constructor
  · intro ha
    have hupd := update_alive g rho i j hin ha
    constructor
    · intro hcnt
      have han : aliveNext g i j = DEAD := by
        rw [aliveNext, hnone, aliveNextAux_none, if_pos hcnt]
      rw [hupd, han]
      by_cases hrho : rho i j = true
      · rw [if_pos ⟨rfl, hrho⟩, if_pos hrho]
      · rw [if_neg (fun hc => hrho hc.2), if_neg hrho]
    · intro hcnt
      have han : aliveNext g i j = ALIVE := by
        rw [aliveNext, hnone, aliveNextAux_none, if_neg (by omega)]
      rw [hupd, han, if_neg (fun hc => alive_ne_dead hc.1)]
  · intro hd
    constructor
    · intro hc3
      exact update_dead_pos g rho i j hin hd
        ⟨(i, j), (mem_cells (i, j)).mpr hin, Or.inr ⟨rfl, rfl, hc3⟩⟩
    · intro hcnt
      exact update_dead_neg g rho i j hin hd (writes2_of_none g i j hnone hcnt)

theorem claim_C5_conway_rules_counterexample :
    gAllDead 0 0 = DEAD ∧
      resource_in_proximity 0 0 gAllDead 3 = none ∧
      count_neighbors 0 0 gAllDead ≠ 3 ∧
      update_grid gAllDead rhoTrue 0 0 = RESOURCE ∧ RESOURCE ≠ DEAD := by
  refine ⟨by decide, by decide, by decide, ?_, by decide⟩
  have h := update_dead_neg gAllDead rhoTrue 0 0 (by decide) (by decide)
    (writes2_of_none gAllDead 0 0 (by decide) (by decide))
  exact h.trans (by decide)

theorem claim_C5_conway_rules_witness :
    resource_in_proximity 0 0 gC5 3 = none ∧ gC5 0 0 = DEAD ∧
      count_neighbors 0 0 gC5 = 3 ∧
      update_grid gC5 rhoFalse 0 0 = ALIVE :=
  ⟨by decide, by decide, by decide,
    ((claim_C5_conway_rules gC5 rhoFalse 0 0 (by decide) (by decide)).2
      (by decide)).1 (by decide)⟩

end GreedyLife
